import Mathlib

/-!
Formal model of the `FinancialAdvisorBot` class in `Stock.py`: the expense
ledger, the retirement projection, the stock-suggestion shaping and the
advisor session.  External gateways (Alpha Vantage inflation data, yfinance
quotes, the OpenAI chat endpoint) are modelled as explicit response
parameters; a response of `none` models a fetch failure or a missing value.
All monetary values and rates are modelled as exact rationals; the binary
floating-point representation used by Python is abstracted away.
-/

namespace FinancialBot

/-- One row of the `expenses` DataFrame: Date, Category, Amount. -/
structure Expense where
  date : String
  category : String
  amount : ℚ
deriving DecidableEq

/-- Model of `add_expense(self, date, category, amount)`: the new row is
concatenated at the end of the ledger (`pd.concat` with `ignore_index`). -/
def add_expense (expenses : List Expense) (date category : String) (amount : ℚ) :
    List Expense :=
  expenses ++ [⟨date, category, amount⟩]

/-- Sum of the Amount column over the rows of one category: the aggregated
value `expenses.groupby("Category")["Amount"].sum()` produces for key `c`. -/
def categoryTotal (expenses : List Expense) (c : String) : ℚ :=
  ((expenses.filter (fun e => e.category == c)).map (fun e => e.amount)).sum

/-- Model of `get_expense_summary(self)`: one `(category, total)` row per
distinct category.  pandas emits the group keys in sorted order; the spec
leaves the order between categories unspecified, so the model lists the
distinct categories in `List.dedup` order.  No claim depends on the order. -/
def get_expense_summary (expenses : List Expense) : List (String × ℚ) :=
  ((expenses.map (fun e => e.category)).dedup).map (fun c => (c, categoryTotal expenses c))

/-- Ledger produced by a sequence of `add_expense(date, category, amount)`
calls, starting from the empty DataFrame created in `__init__`. -/
def ledgerOfCalls (calls : List (String × String × ℚ)) : List Expense :=
  calls.foldl (fun l c => add_expense l c.1 c.2.1 c.2.2) []

/-- The `retirement_plan` dict: every field starts as `None` in `__init__`. -/
structure RetirementPlan where
  current_age : Option ℤ
  retirement_age : Option ℤ
  current_savings : Option ℚ
  monthly_contribution : Option ℚ
  savings_goal : Option ℚ
deriving DecidableEq

/-- The plan as initialised in `__init__`: all five fields `None`. -/
def initPlan : RetirementPlan := ⟨none, none, none, none, none⟩

/-- Model of `set_retirement_plan`: `dict.update` overwrites all five keys. -/
def set_retirement_plan (_plan : RetirementPlan) (current_age retirement_age : ℤ)
    (current_savings monthly_contribution savings_goal : ℚ) : RetirementPlan :=
  ⟨some current_age, some retirement_age, some current_savings,
   some monthly_contribution, some savings_goal⟩

/-- A Python `TypeError`, raised by arithmetic on `None` (an untyped crash,
not a domain-specific error value). -/
inductive PyError where
  | typeError
deriving DecidableEq

/-- The dict returned by `project_retirement_savings`. -/
structure Projection where
  inflation_rate : ℚ
  adjusted_goal : ℚ
  years_to_retirement : ℤ
deriving DecidableEq

/-- Python `x or 0` for `x` a float-or-`None`: both `None` and `0.0` are
falsy and give `0`; any other value passes through. -/
def pyOrZero (x : Option ℚ) : ℚ :=
  match x with
  | none => 0
  | some v => if v = 0 then 0 else v

/-- Model of `project_retirement_savings(self)`.  The inflation-gateway
response of `get_current_inflation()` (a rate, or `None` on failure) is passed
explicitly and run through `or 0`.  When `retirement_age`, `current_age` or
`savings_goal` is still `None`, the subtraction or the multiplication on
`None` raises `TypeError`. -/
def project_retirement_savings (plan : RetirementPlan) (inflationResp : Option ℚ) :
    Except PyError Projection :=
  let inflation_rate := pyOrZero inflationResp
  match plan.retirement_age, plan.current_age, plan.savings_goal with
  | some ra, some ca, some sg =>
    let years_to_retirement := ra - ca
    .ok ⟨inflation_rate,
         sg * ((1 + inflation_rate / 100) ^ years_to_retirement),
         years_to_retirement⟩
  | _, _, _ => .error .typeError

/-- Fields `suggest_stocks` reads from `yf.Ticker(t).info`; a field is `none`
when the corresponding key is absent from the info dict. -/
structure QuoteInfo where
  currentPrice : Option ℚ
  shortName : Option String
  marketCap : Option ℤ
  fiftyTwoWeekHigh : Option ℚ
  fiftyTwoWeekLow : Option ℚ
deriving DecidableEq

/-- Value stored in `stock_data[ticker]` for a retained ticker. -/
structure StockData where
  name : String
  price : ℚ
  marketCap : ℤ
  week52High : ℚ
  week52Low : ℚ
deriving DecidableEq

/-- One row of the DataFrame returned by `suggest_stocks`. -/
structure StockRow where
  ticker : String
  name : String
  price : ℚ
  marketCap : ℤ
  week52High : ℚ
  week52Low : ℚ
  suggestedInvestment : ℚ
deriving DecidableEq

/-- The fixed watch-list hardcoded in `suggest_stocks`. -/
def stock_tickers : List String := ["AAPL", "MSFT", "GOOGL", "AMZN", "TSLA"]

/-- Body of one loop iteration of `suggest_stocks`: `info.get("currentPrice",
None)` followed by the truthiness test `if price:` (both `None` and `0` are
falsy, so the ticker is skipped), then four `info[...]` item lookups, any of
which raises `KeyError` when the key is absent.  `.error` models the raised
exception. -/
def quoteData (info : QuoteInfo) : Except Unit (Option StockData) :=
  match info.currentPrice with
  | none => .ok none
  | some price =>
    if price = 0 then .ok none
    else
      match info.shortName, info.marketCap, info.fiftyTwoWeekHigh, info.fiftyTwoWeekLow with
      | some n, some mc, some hi, some lo => .ok (some ⟨n, price, mc, hi, lo⟩)
      | _, _, _, _ => .error ()

/-- The `for ticker in stock_tickers` loop building the `stock_data` dict (a
Python dict preserves insertion order); an exception raised at any iteration
aborts the whole loop and discards everything collected so far. -/
def collectStockData (g : String → QuoteInfo) :
    List String → Except Unit (List (String × StockData))
  | [] => .ok []
  | t :: ts =>
    match quoteData (g t) with
    | .error e => .error e
    | .ok none => collectStockData g ts
    | .ok (some d) =>
      match collectStockData g ts with
      | .error e => .error e
      | .ok rest => .ok ((t, d) :: rest)

/-- Model of `suggest_stocks(self, investment_amount, years)`.  The market
gateway is the function `g` from ticker to info dict.  On any exception the
`except` handler returns `None`; otherwise the result is the rows of
`stock_data` with the constant column `Suggested Investment =
investment_amount / len(stock_tickers)`.  The `years` argument is never
read. -/
def suggest_stocks (g : String → QuoteInfo) (investment_amount : ℚ) (years : ℤ) :
    Option (List StockRow) :=
  match collectStockData g stock_tickers with
  | .error _ => none
  | .ok rows =>
    some (rows.map (fun r =>
      ⟨r.1, r.2.name, r.2.price, r.2.marketCap, r.2.week52High, r.2.week52Low,
       investment_amount / (stock_tickers.length : ℚ)⟩))

/-- True when the loop iteration for `t` retains the ticker (price present and
truthy, all four other fields present). -/
def quoteOk (g : String → QuoteInfo) (t : String) : Bool :=
  match quoteData (g t) with
  | .ok (some _) => true
  | _ => false

/-- True when the loop iteration for `t` raises `KeyError` (price present and
truthy but some other field missing). -/
def quoteErr (g : String → QuoteInfo) (t : String) : Bool :=
  match quoteData (g t) with
  | .error _ => true
  | _ => false

/-- Failure of the OpenAI call (`openai.ChatCompletion.create` raising); the
exception is not caught in `generate_financial_advice` and propagates to the
caller. -/
inductive AdvisorError where
  | advisorUnavailable
deriving DecidableEq

/-- One chat message passed to `openai.ChatCompletion.create`. -/
structure Message where
  role : String
  content : String
deriving DecidableEq

/-- The mutable state of the bot instance: the expense ledger and the
retirement plan. -/
structure BotState where
  expenses : List Expense
  retirement_plan : RetirementPlan
deriving DecidableEq

/-- Rendering of the Python f-string field `\x7binflation_rate:.2f\x7d`: two
decimal digits.  The rounding of the binary double is abstracted by rounding
the exact rational with Mathlib `round`. -/
def format2f (q : ℚ) : String :=
  let n : ℤ := round (q * 100)
  let sign := if n < 0 then "-" else ""
  let m := n.natAbs
  sign ++ toString (m / 100) ++ "." ++ (if m % 100 < 10 then "0" else "") ++ toString (m % 100)

/-- The inflation context string built by `generate_financial_advice`: the
f-string on success, the fallback sentence when `get_current_inflation()`
returned `None`. -/
def inflation_context (inflationResp : Option ℚ) : String :=
  match inflationResp with
  | some r =>
    "The current annual inflation rate is " ++ format2f r ++
      "%. Please consider this in your calculations."
  | none => "I couldn\x27t retrieve the current inflation rate. Proceed without inflation adjustment."

/-- The three-element message list passed to `openai.ChatCompletion.create`. -/
def advisorMessages (inflationResp : Option ℚ) (prompt : String) : List Message :=
  [⟨"system", "You are a financial advisor bot."⟩,
   ⟨"assistant", inflation_context inflationResp⟩,
   ⟨"user", prompt⟩]

/-- Model of `generate_financial_advice(self, prompt)`: fetch the inflation
rate, build the context string, call the advisor gateway `complete` on the
three messages, and return the reply text.  The method neither reads nor
writes `self.expenses` or `self.retirement_plan`; a gateway failure
propagates to the caller as an error, with the state returned untouched. -/
def generate_financial_advice (bot : BotState) (inflationResp : Option ℚ)
    (complete : List Message → Option String) (prompt : String) :
    Except AdvisorError String × BotState :=
  match complete (advisorMessages inflationResp prompt) with
  | none => (.error .advisorUnavailable, bot)
  | some reply => (.ok reply, bot)

/-- Folding `add_expense` over a call sequence appends the corresponding rows. -/
lemma foldl_add_expense (calls : List (String × String × ℚ)) (init : List Expense) :
    calls.foldl (fun l c => add_expense l c.1 c.2.1 c.2.2) init
      = init ++ calls.map (fun c => ⟨c.1, c.2.1, c.2.2⟩) := by
  induction calls generalizing init with
  | nil => simp
  | cons c cs ih =>
    simp only [List.foldl_cons, List.map_cons]
    rw [ih]
    simp [add_expense, List.append_assoc]

/-- Total of a category over the empty ledger is zero. -/
lemma categoryTotal_nil (c : String) : categoryTotal [] c = 0 := rfl

/-- Unfolding `categoryTotal` over a cons cell. -/
lemma categoryTotal_cons (e : Expense) (l : List Expense) (c : String) :
    categoryTotal (e :: l) c = (if e.category = c then e.amount else 0) + categoryTotal l c := by
  simp only [categoryTotal, List.filter_cons]
  by_cases h : e.category = c <;> simp [h]

/-- Summing an indicator over a list that avoids the key gives zero. -/
lemma sum_ite_of_not_mem (a : String) (x : ℚ) (cs : List String) (h : a ∉ cs) :
    (cs.map (fun c => if a = c then x else 0)).sum = 0 := by
  induction cs with
  | nil => simp
  | cons b cs ih =>
    simp only [List.mem_cons, not_or] at h
    simp [ih h.2, h.1]

/-- Summing an indicator over a duplicate-free list containing the key gives
exactly the indicated value. -/
lemma sum_ite_of_nodup_mem (a : String) (x : ℚ) (cs : List String)
    (hnd : cs.Nodup) (hmem : a ∈ cs) :
    (cs.map (fun c => if a = c then x else 0)).sum = x := by
  induction cs with
  | nil => simp at hmem
  | cons b cs ih =>
    rcases List.mem_cons.mp hmem with h | h
    · subst h
      have hnotin : a ∉ cs := (List.nodup_cons.mp hnd).1
      simp [sum_ite_of_not_mem a x cs hnotin]
    · have hab : ¬ a = b := by
        rintro rfl
        exact (List.nodup_cons.mp hnd).1 h
      simp [hab, ih (List.nodup_cons.mp hnd).2 h]

/-- Partition identity: summing the per-category totals over any
duplicate-free list of categories covering the ledger gives the grand total
of all amounts. -/
lemma sum_categoryTotal (l : List Expense) (cs : List String)
    (hnd : cs.Nodup) (hmem : ∀ e ∈ l, e.category ∈ cs) :
    (cs.map (fun c => categoryTotal l c)).sum = (l.map (fun e => e.amount)).sum := by
  induction l with
  | nil => simp [categoryTotal_nil]
  | cons e l ih =>
    have h1 : ∀ x ∈ l, x.category ∈ cs := fun x hx => hmem x (List.mem_cons_of_mem _ hx)
    have h2 : e.category ∈ cs := hmem e (List.mem_cons_self _ _)
    calc (cs.map (fun c => categoryTotal (e :: l) c)).sum
        = (cs.map (fun c => (if e.category = c then e.amount else 0) + categoryTotal l c)).sum := by
          simp only [categoryTotal_cons]
      _ = (cs.map (fun c => if e.category = c then e.amount else 0)).sum
            + (cs.map (fun c => categoryTotal l c)).sum := by
          rw [List.sum_map_add]
      _ = e.amount + (l.map (fun e => e.amount)).sum := by
          rw [sum_ite_of_nodup_mem e.category e.amount cs hnd h2, ih h1]
      _ = ((e :: l).map (fun e => e.amount)).sum := by simp

/-- Specification of `get_expense_summary` over an arbitrary ledger: one row
per distinct category, each total the per-category sum, and the totals adding
up to the grand total. -/
lemma get_expense_summary_spec (l : List Expense) :
    ((get_expense_summary l).map Prod.fst).Nodup ∧
    (∀ c : String, c ∈ (get_expense_summary l).map Prod.fst ↔ c ∈ l.map (fun e => e.category)) ∧
    (∀ p ∈ get_expense_summary l, p.2 = categoryTotal l p.1) ∧
    ((get_expense_summary l).map Prod.snd).sum = (l.map (fun e => e.amount)).sum := by
  refine ⟨?_, ?_, ?_, ?_⟩
  · have : (get_expense_summary l).map Prod.fst = (l.map (fun e => e.category)).dedup := by
      simp [get_expense_summary, List.map_map, Function.comp_def]
    rw [this]
    exact List.nodup_dedup _
  · intro c
    simp [get_expense_summary, List.map_map, Function.comp, List.mem_dedup]
  · intro p hp
    simp only [get_expense_summary, List.mem_map] at hp
    obtain ⟨c, _, rfl⟩ := hp
    rfl
  · have : (get_expense_summary l).map Prod.snd
        = ((l.map (fun e => e.category)).dedup).map (fun c => categoryTotal l c) := by
      simp [get_expense_summary, List.map_map, Function.comp_def]
    rw [this]
    exact sum_categoryTotal l _ (List.nodup_dedup _)
      (fun e he => List.mem_dedup.mpr (List.mem_map_of_mem _ he))

/-- C1: for every sequence of `add(date, category, amount)` calls, `summary()`
returns exactly one `(category, total)` pair per distinct category, each total
equal to the sum of the amounts added under that category, and the sum of all
category totals equals the sum of all amounts ever added. -/
theorem expense_summary_correct (calls : List (String × String × ℚ)) :
    ((get_expense_summary (ledgerOfCalls calls)).map Prod.fst).Nodup ∧
    (∀ c : String, c ∈ (get_expense_summary (ledgerOfCalls calls)).map Prod.fst ↔
      c ∈ (ledgerOfCalls calls).map (fun e => e.category)) ∧
    (∀ p ∈ get_expense_summary (ledgerOfCalls calls), p.2 = categoryTotal (ledgerOfCalls calls) p.1) ∧
    ((get_expense_summary (ledgerOfCalls calls)).map Prod.snd).sum
      = ((ledgerOfCalls calls).map (fun e => e.amount)).sum :=
  get_expense_summary_spec (ledgerOfCalls calls)

/-- Example call sequence of the spec: two grocery expenses and one rent
expense. -/
def exampleCalls : List (String × String × ℚ) :=
  [("2024-01-01", "Groceries", 50), ("2024-01-02", "Groceries", 30), ("2024-01-03", "Rent", 1200)]

/-- Witness for C1 at the example of the spec: the Rent row is in the summary
and its total is the per-category sum. -/
theorem expense_summary_correct_witness :
    ("Rent", (1200 : ℚ)) ∈ get_expense_summary (ledgerOfCalls exampleCalls) ∧
    (1200 : ℚ) = categoryTotal (ledgerOfCalls exampleCalls) "Rent" := by
  have hval : categoryTotal (ledgerOfCalls exampleCalls) "Rent" = 1200 := by
    have hfil : (ledgerOfCalls exampleCalls).filter (fun e => e.category == "Rent")
        = [⟨"2024-01-03", "Rent", 1200⟩] := by decide
    rw [categoryTotal, hfil]
    norm_num
  have hR : "Rent" ∈ ((ledgerOfCalls exampleCalls).map (fun e => e.category)).dedup := by decide
  have hmem : ("Rent", (1200 : ℚ)) ∈ get_expense_summary (ledgerOfCalls exampleCalls) := by
    rw [get_expense_summary]
    exact List.mem_map.mpr ⟨"Rent", hR, by rw [hval]⟩
  exact ⟨hmem, (expense_summary_correct exampleCalls).2.2.1 _ hmem⟩

/-- C8: `summary()` called on a ledger to which no expense has been added
returns an empty mapping and does not raise an error. -/
theorem empty_ledger_summary : get_expense_summary (ledgerOfCalls []) = [] := rfl

/-- Python `x or 0` applied to a present value is the value itself. -/
lemma pyOrZero_some (r : ℚ) : pyOrZero (some r) = r := by
  rw [pyOrZero]
  split <;> simp_all

/-- C3: the claim says a projection requested before the plan has been set
fails with a descriptive PlanIncomplete error; the code instead crashes with
an untyped `TypeError` when it subtracts the `None` ages.  This theorem
evaluates the code on the fresh, all-`None` plan of `__init__`. -/
theorem project_before_set_crashes (inflationResp : Option ℚ) :
    project_retirement_savings initPlan inflationResp = .error .typeError := rfl

/-- C4 counterexample: with the fully set plan (current age 30, retirement
age 31, savings goal 0) and a positive number of years to retirement, raising
the inflation rate from 0 to 3 leaves the adjusted goal unchanged at 0, so
the adjusted goal is not strictly monotonically increasing in the inflation
rate as the claim states. -/
theorem projection_not_strict_mono_counterexample :
    project_retirement_savings ⟨some 30, some 31, some 0, some 0, some 0⟩ (some 3)
      = .ok ⟨3, 0, 1⟩ ∧
    project_retirement_savings ⟨some 30, some 31, some 0, some 0, some 0⟩ (some 0)
      = .ok ⟨0, 0, 1⟩ := by
  constructor <;> norm_num [project_retirement_savings, pyOrZero]

/-- C4 (amended): for a fully set plan with retirementAge > currentAge and a
positive savings goal, the adjusted goal follows the formula
savingsGoal * (1 + rate/100) ^ yearsToRetirement, equals savingsGoal exactly
at rate 0, and is strictly monotonically increasing in the inflation rate on
the range of rates above -100 (where the compounding base stays positive). -/
theorem projection_monotone_formula (current_age retirement_age : ℤ)
    (current_savings monthly_contribution savings_goal : ℚ) (r r1 r2 : ℚ)
    (hage : current_age < retirement_age) (hgoal : 0 < savings_goal)
    (h1 : -100 < r1) (h12 : r1 < r2) :
    (project_retirement_savings
        ⟨some current_age, some retirement_age, some current_savings,
         some monthly_contribution, some savings_goal⟩ (some r)
      = .ok ⟨r, savings_goal * ((1 + r / 100) ^ (retirement_age - current_age)),
             retirement_age - current_age⟩) ∧
    (project_retirement_savings
        ⟨some current_age, some retirement_age, some current_savings,
         some monthly_contribution, some savings_goal⟩ (some 0)
      = .ok ⟨0, savings_goal, retirement_age - current_age⟩) ∧
    (savings_goal * ((1 + r1 / 100) ^ (retirement_age - current_age))
      < savings_goal * ((1 + r2 / 100) ^ (retirement_age - current_age))) := by
  have hy : (0 : ℤ) < retirement_age - current_age := sub_pos.mpr hage
  refine ⟨?_, ?_, ?_⟩
  · simp [project_retirement_savings, pyOrZero_some]
  · simp [project_retirement_savings, pyOrZero_some]
  · have hb1 : (0 : ℚ) < 1 + r1 / 100 := by linarith
    have hb2 : (1 : ℚ) + r1 / 100 < 1 + r2 / 100 := by linarith
    have hyn : retirement_age - current_age = ((retirement_age - current_age).toNat : ℤ) :=
      (Int.toNat_of_nonneg hy.le).symm
    have hpow : (1 + r1 / 100) ^ (retirement_age - current_age)
        < (1 + r2 / 100) ^ (retirement_age - current_age) := by
      rw [hyn, zpow_natCast, zpow_natCast]
      exact pow_lt_pow_left₀ hb2 hb1.le (by omega)
    exact mul_lt_mul_of_pos_left hpow hgoal

/-- Witness for C4 (amended) at the concrete plan (30, 31, savings 0,
contribution 0, goal 1): at inflation rate 0 the projection returns the goal
unchanged, and the hypotheses of the theorem hold at the chosen inputs. -/
theorem projection_monotone_formula_witness :
    (30 : ℤ) < 31 ∧ (0 : ℚ) < 1 ∧ (-100 : ℚ) < 0 ∧ (0 : ℚ) < 3 ∧
    project_retirement_savings ⟨some 30, some 31, some 0, some 0, some 1⟩ (some 0)
      = .ok ⟨0, 1, 1⟩ := by
  refine ⟨by norm_num, by norm_num, by norm_num, by norm_num, ?_⟩
  have h := (projection_monotone_formula 30 31 0 0 1 2 0 3
    (by norm_num) (by norm_num) (by norm_num) (by norm_num)).2.1
  simpa using h

/-- Shape of a successful `suggest_stocks` result: the collected pairs mapped
to rows with the constant suggested-investment column. -/
lemma suggest_stocks_rows (g : String → QuoteInfo) (a : ℚ) (y : ℤ) (rows : List StockRow)
    (hrows : suggest_stocks g a y = some rows) :
    ∃ pairs, collectStockData g stock_tickers = .ok pairs ∧
      rows = pairs.map (fun r =>
        ⟨r.1, r.2.name, r.2.price, r.2.marketCap, r.2.week52High, r.2.week52Low,
         a / (stock_tickers.length : ℚ)⟩) := by
  rw [suggest_stocks] at hrows
  rcases hc : collectStockData g stock_tickers with e | pairs <;> simp only [hc] at hrows
  · cases hrows
  · exact ⟨pairs, rfl, by injection hrows with h; exact h.symm⟩

/-- When every ticker of the list resolves with a full quote, the loop
collects one pair per ticker, in order. -/
lemma collectStockData_of_all_ok (g : String → QuoteInfo) (ts : List String)
    (h : ∀ t ∈ ts, quoteOk g t = true) :
    ∃ pairs, collectStockData g ts = .ok pairs ∧ pairs.map Prod.fst = ts := by
  induction ts with
  | nil => exact ⟨[], rfl, rfl⟩
  | cons t ts ih =>
    have hts : ∀ x ∈ ts, quoteOk g x = true := fun x hx => h x (List.mem_cons_of_mem _ hx)
    obtain ⟨pairs, hp, hmap⟩ := ih hts
    have htq := h t (List.mem_cons_self _ _)
    rcases hq : quoteData (g t) with e | d
    · rw [quoteOk, hq] at htq
      cases htq
    · rcases d with _ | d
      · rw [quoteOk, hq] at htq
        cases htq
      · refine ⟨(t, d) :: pairs, ?_, ?_⟩
        · simp only [collectStockData, hq, hp]
        · simp [hmap]

/-- C2: each ticker retained by `suggest_stocks` is assigned a suggested
investment equal to the investment amount divided by the length of the
original fixed ticker list (5), not by the count of successfully fetched
tickers; consequently, when every fetch succeeds, the suggested investments
sum to the investment amount. -/
theorem suggest_allocation (g : String → QuoteInfo) (investment_amount : ℚ) (years : ℤ)
    (rows : List StockRow) (hrows : suggest_stocks g investment_amount years = some rows) :
    stock_tickers.length = 5 ∧
    (∀ r ∈ rows, r.suggestedInvestment = investment_amount / 5) ∧
    ((∀ t ∈ stock_tickers, quoteOk g t = true) →
      (rows.map (fun r => r.suggestedInvestment)).sum = investment_amount) := by
  obtain ⟨pairs, hc, hrw⟩ := suggest_stocks_rows g investment_amount years rows hrows
  have hcast : ((stock_tickers.length : ℕ) : ℚ) = 5 := by norm_num [stock_tickers]
  refine ⟨rfl, ?_, ?_⟩
  · intro r hr
    rw [hrw] at hr
    obtain ⟨q, _, rfl⟩ := List.mem_map.mp hr
    simpa using congrArg (investment_amount / ·) hcast
  · intro hall
    obtain ⟨pairs', hp', hmap'⟩ := collectStockData_of_all_ok g stock_tickers hall
    rw [hp'] at hc
    injection hc with hpe
    subst hpe
    have hconst : ∀ x ∈ rows.map (fun r => r.suggestedInvestment),
        x = investment_amount / (stock_tickers.length : ℚ) := by
      intro x hx
      obtain ⟨r, hr, rfl⟩ := List.mem_map.mp hx
      rw [hrw] at hr
      obtain ⟨q, _, rfl⟩ := List.mem_map.mp hr
      rfl
    rw [List.sum_eq_card_nsmul _ _ hconst]
    have hlenr : (rows.map (fun r => r.suggestedInvestment)).length = stock_tickers.length := by
      rw [List.length_map, hrw, List.length_map, ← List.length_map pairs' Prod.fst, hmap']
    rw [hlenr, nsmul_eq_mul, hcast, mul_comm]
    exact div_mul_cancel₀ investment_amount (by norm_num)

/-- Gateway on which every watched ticker resolves with a full quote. -/
def gAllOk : String → QuoteInfo := fun _ => ⟨some 10, some "Mega Corp", some 1000, some 12, some 8⟩

/-- Rows `suggest_stocks` produces on `gAllOk` with investment amount 100. -/
def rowsAllOk : List StockRow :=
  stock_tickers.map (fun t => ⟨t, "Mega Corp", 10, 1000, 12, 8, 100 / (stock_tickers.length : ℚ)⟩)

/-- Witness for C2: on a gateway where all five fetches succeed, the five
suggested investments sum to the invested amount of 100. -/
theorem suggest_allocation_witness :
    suggest_stocks gAllOk 100 1 = some rowsAllOk ∧
    (rowsAllOk.map (fun r => r.suggestedInvestment)).sum = 100 := by
  have hsome : suggest_stocks gAllOk 100 1 = some rowsAllOk := rfl
  exact ⟨hsome, (suggest_allocation gAllOk 100 1 rowsAllOk hsome).2.2 (by decide)⟩

/-- C9: the `years` argument of `suggest_stocks` has no influence whatsoever
on the result: two calls with the same gateway responses and investment
amount but different `years` values return the same rows. -/
theorem suggest_ignores_years (g : String → QuoteInfo) (investment_amount : ℚ) (y1 y2 : ℤ) :
    suggest_stocks g investment_amount y1 = suggest_stocks g investment_amount y2 := rfl

/-- When no loop iteration raises, the loop collects exactly the tickers
whose quote is retained, in watch-list order. -/
lemma collectStockData_of_no_error (g : String → QuoteInfo) (ts : List String)
    (h : ∀ s ∈ ts, quoteErr g s = false) :
    ∃ pairs, collectStockData g ts = .ok pairs ∧
      pairs.map Prod.fst = ts.filter (fun s => quoteOk g s) := by
  induction ts with
  | nil => exact ⟨[], rfl, rfl⟩
  | cons s ts ih =>
    have hs := h s (List.mem_cons_self _ _)
    have hts : ∀ x ∈ ts, quoteErr g x = false := fun x hx => h x (List.mem_cons_of_mem _ hx)
    obtain ⟨pairs, hp, hmap⟩ := ih hts
    rcases hq : quoteData (g s) with e | d
    · rw [quoteErr, hq] at hs
      cases hs
    · rcases d with _ | d
      · have hok : quoteOk g s = false := by rw [quoteOk, hq]
        refine ⟨pairs, ?_, ?_⟩
        · simp only [collectStockData, hq, hp]
        · simp [List.filter_cons, hok, hmap]
      · have hok : quoteOk g s = true := by rw [quoteOk, hq]
        refine ⟨(s, d) :: pairs, ?_, ?_⟩
        · simp only [collectStockData, hq, hp]
        · simp [List.filter_cons, hok, hmap]

/-- C7: a watched ticker whose quote reports no current price is silently
omitted from the result while the remaining tickers are returned normally,
with no error raised and no partial-failure report beyond the shorter output
list. -/
theorem suggest_omits_missing_price (g : String → QuoteInfo) (investment_amount : ℚ)
    (years : ℤ) (t : String) (ht : t ∈ stock_tickers) (hmiss : (g t).currentPrice = none)
    (hnoerr : ∀ s ∈ stock_tickers, quoteErr g s = false) :
    (suggest_stocks g investment_amount years).map (fun rows => rows.map (fun r => r.ticker))
      = some (stock_tickers.filter (fun s => quoteOk g s)) ∧
    t ∉ stock_tickers.filter (fun s => quoteOk g s) ∧
    (∀ s ∈ stock_tickers, quoteOk g s = true →
      s ∈ stock_tickers.filter (fun s => quoteOk g s)) := by
  obtain ⟨pairs, hp, hmap⟩ := collectStockData_of_no_error g stock_tickers hnoerr
  have hok : quoteOk g t = false := by rw [quoteOk, quoteData, hmiss]
  refine ⟨?_, ?_, ?_⟩
  · simp only [suggest_stocks, hp, Option.map_some', List.map_map]
    rw [← hmap]
    rfl
  · intro hmem
    rw [List.mem_filter, hok] at hmem
    cases hmem.2
  · intro s hs hsok
    exact List.mem_filter.mpr ⟨hs, hsok⟩

/-- Gateway on which TSLA reports no current price and every other watched
ticker resolves with a full quote. -/
def gMissingPrice : String → QuoteInfo := fun t =>
  if t = "TSLA" then ⟨none, some "Tesla", some 500, some 3, some 1⟩
  else ⟨some 10, some "Mega Corp", some 1000, some 12, some 8⟩

/-- Witness for C7: with TSLA lacking a price, the result holds exactly the
other four tickers and TSLA is omitted. -/
theorem suggest_omits_missing_price_witness :
    "TSLA" ∈ stock_tickers ∧ (gMissingPrice "TSLA").currentPrice = none ∧
    (suggest_stocks gMissingPrice 100 1).map (fun rows => rows.map (fun r => r.ticker))
      = some ["AAPL", "MSFT", "GOOGL", "AMZN"] ∧
    "TSLA" ∉ (["AAPL", "MSFT", "GOOGL", "AMZN"] : List String) := by
  have h := suggest_omits_missing_price gMissingPrice 100 1 "TSLA" (by decide) (by decide)
    (by decide)
  have hfil : stock_tickers.filter (fun s => quoteOk gMissingPrice s)
      = ["AAPL", "MSFT", "GOOGL", "AMZN"] := by decide
  refine ⟨by decide, by decide, ?_, by decide⟩
  rw [h.1, hfil]

/-- A quote with a truthy current price but a missing required field makes
the loop iteration raise `KeyError`. -/
lemma quoteData_error_of_missing_field (info : QuoteInfo) (p : ℚ)
    (hp : info.currentPrice = some p) (hp0 : p ≠ 0)
    (hmiss : info.shortName = none ∨ info.marketCap = none ∨
      info.fiftyTwoWeekHigh = none ∨ info.fiftyTwoWeekLow = none) :
    quoteData info = .error () := by
  simp only [quoteData, hp]
  rw [if_neg hp0]
  rcases hsn : info.shortName with _ | n <;>
    rcases hmc : info.marketCap with _ | mc <;>
      rcases hhi : info.fiftyTwoWeekHigh with _ | hi <;>
        rcases hlo : info.fiftyTwoWeekLow with _ | lo <;>
          simp_all

/-- An exception at any iteration makes the whole loop fail. -/
lemma collectStockData_error (g : String → QuoteInfo) (ts : List String) (t : String)
    (ht : t ∈ ts) (herr : quoteData (g t) = .error ()) :
    collectStockData g ts = .error () := by
  induction ts with
  | nil => cases ht
  | cons s ts ih =>
    rcases List.mem_cons.mp ht with rfl | hmem
    · simp only [collectStockData, herr]
    · rcases hq : quoteData (g s) with e | d
      · cases e
        simp only [collectStockData, hq]
      · rcases d with _ | d
        · simp only [collectStockData, hq]
          exact ih hmem
        · simp only [collectStockData, hq, ih hmem]

/-- C10: if a watched ticker has a current price but its quote is missing any
of the other required fields, the resulting lookup error aborts the whole
operation and `suggest_stocks` returns `None`, losing the successfully
fetched tickers as well. -/
theorem suggest_aborts_on_missing_field (g : String → QuoteInfo) (investment_amount : ℚ)
    (years : ℤ) (t : String) (p : ℚ) (ht : t ∈ stock_tickers)
    (hp : (g t).currentPrice = some p) (hp0 : p ≠ 0)
    (hmiss : (g t).shortName = none ∨ (g t).marketCap = none ∨
      (g t).fiftyTwoWeekHigh = none ∨ (g t).fiftyTwoWeekLow = none) :
    suggest_stocks g investment_amount years = none := by
  have herr := quoteData_error_of_missing_field (g t) p hp hp0 hmiss
  have hcol := collectStockData_error g stock_tickers t ht herr
  simp [suggest_stocks, hcol]

/-- Gateway on which MSFT has a price but no short name, and every other
watched ticker resolves with a full quote. -/
def gMissingName : String → QuoteInfo := fun t =>
  if t = "MSFT" then ⟨some 10, none, some 1000, some 12, some 8⟩
  else ⟨some 10, some "Mega Corp", some 1000, some 12, some 8⟩

/-- Witness for C10: with MSFT missing its short name, the whole suggestion
call returns `None` even though the other four tickers fetched fine. -/
theorem suggest_aborts_on_missing_field_witness :
    "MSFT" ∈ stock_tickers ∧ (gMissingName "MSFT").currentPrice = some 10 ∧
    (10 : ℚ) ≠ 0 ∧ (gMissingName "MSFT").shortName = none ∧
    suggest_stocks gMissingName 100 1 = none := by
  refine ⟨by decide, by decide, by norm_num, by decide, ?_⟩
  exact suggest_aborts_on_missing_field gMissingName 100 1 "MSFT" 10 (by decide) (by decide)
    (by norm_num) (Or.inl (by decide))

/-- C5: for every session state and every prompt, if the advisor-gateway call
fails then `ask(prompt)` surfaces an AdvisorUnavailable error propagated to
the caller, with no fallback text, and the expense ledger and the retirement
plan are exactly the same after the failed call as before it. -/
theorem advice_failure_preserves_state (bot : BotState) (inflationResp : Option ℚ)
    (complete : List Message → Option String) (prompt : String)
    (hfail : complete (advisorMessages inflationResp prompt) = none) :
    generate_financial_advice bot inflationResp complete prompt
      = (.error .advisorUnavailable, bot) := by
  simp [generate_financial_advice, hfail]

/-- Witness for C5: a concrete failing gateway makes the call error while the
concrete bot state is returned untouched. -/
theorem advice_failure_preserves_state_witness :
    (fun _ : List Message => (none : Option String))
        (advisorMessages none "How should I invest") = none ∧
    generate_financial_advice ⟨[], initPlan⟩ none (fun _ => none) "How should I invest"
      = (.error .advisorUnavailable, ⟨[], initPlan⟩) :=
  ⟨rfl, advice_failure_preserves_state ⟨[], initPlan⟩ none (fun _ => none)
    "How should I invest" rfl⟩

/-- C6 counterexample: the fallback context string the code builds when the
inflation gateway fails is the literal sentence of the source, not the string
the claim quotes. -/
theorem fallback_string_counterexample :
    inflation_context none ≠ "rate unavailable, proceed without adjustment" := by decide

/-- C6 (amended): `ask(prompt)` builds an inflation-context string (the
fallback sentence of the source when the inflation gateway fails), sends
exactly the three-part message list — system-role persona, assistant-role
inflation context, user-role prompt — to the advisor gateway, and returns the
gateway reply verbatim. -/
theorem ask_builds_messages_and_returns_reply (bot : BotState) (inflationResp : Option ℚ)
    (complete : List Message → Option String) (prompt : String) :
    advisorMessages inflationResp prompt
      = [⟨"system", "You are a financial advisor bot."⟩,
         ⟨"assistant", inflation_context inflationResp⟩,
         ⟨"user", prompt⟩] ∧
    inflation_context none
      = "I couldn\x27t retrieve the current inflation rate. Proceed without inflation adjustment." ∧
    (∀ r : ℚ, inflation_context (some r)
      = "The current annual inflation rate is " ++ format2f r ++
          "%. Please consider this in your calculations.") ∧
    (∀ reply : String, complete (advisorMessages inflationResp prompt) = some reply →
      generate_financial_advice bot inflationResp complete prompt = (.ok reply, bot)) := by
  refine ⟨rfl, rfl, fun r => rfl, fun reply hreply => ?_⟩
  simp [generate_financial_advice, hreply]

/-- Witness for C6 (amended): a concrete gateway reply is returned verbatim
at a concrete state, rate and prompt. -/
theorem ask_builds_messages_witness :
    (fun _ : List Message => some "Diversify broadly.")
        (advisorMessages (some 3) "Should I buy bonds") = some "Diversify broadly." ∧
    generate_financial_advice ⟨[], initPlan⟩ (some 3) (fun _ => some "Diversify broadly.")
        "Should I buy bonds" = (.ok "Diversify broadly.", ⟨[], initPlan⟩) :=
  ⟨rfl, (ask_builds_messages_and_returns_reply ⟨[], initPlan⟩ (some 3)
    (fun _ => some "Diversify broadly.") "Should I buy bonds").2.2.2 "Diversify broadly." rfl⟩

end FinancialBot
